import Mathlib

/-!
Verification of the yuha core: transport-kind model
(`crates/core/src/transport/types.rs`) and length-prefixed message framing
(`crates/core/src/message_channel.rs`), shallowly embedded in Lean.

Bytes are modelled as `Nat` (a genuine byte is `< 256`, stated as a
hypothesis where it matters).  A duplex stream's read side is modelled as
the list of byte chunks successive `read_buf` calls deliver: an exhausted
chunk list, or an empty chunk, is a zero-byte read (peer closed).  The
write side is a `WriteStream`: bytes written but not yet flushed, plus the
bytes already flushed (the part the peer can observe).
-/

deriving instance DecidableEq for Except

namespace Yuha

/-- `TransportType` from `transport/types.rs`: the four supported transport
kinds `Ssh | Local | Tcp | Wsl`. -/
inductive TransportType where
  | Ssh
  | Local
  | Tcp
  | Wsl
  deriving DecidableEq, Repr

/-- The transport-side error surface visible in `transport/types.rs`:
`TransportError::ConfigurationError { reason }` is the variant `from_str`
constructs for an unknown transport-kind string.  (Other variants of the
Rust enum are irrelevant to parsing and not modelled.) -/
inductive TransportError where
  | ConfigurationError (reason : String)
  deriving DecidableEq, Repr

/-- `impl fmt::Display for TransportType`: the canonical lowercase string
form, `Ssh ↦ "ssh"`, `Local ↦ "local"`, `Tcp ↦ "tcp"`, `Wsl ↦ "wsl"`. -/
def TransportType.fmt : TransportType → String
  | .Ssh => "ssh"
  | .Local => "local"
  | .Tcp => "tcp"
  | .Wsl => "wsl"

/-- Model of Rust `str::to_lowercase` as used by `from_str`: lower-case each
character (the four transport names are plain ASCII, where Rust's Unicode
lowercasing and per-character ASCII lowercasing agree). -/
def toLowercase (s : String) : String :=
  ⟨s.data.map Char.toLower⟩

/-- `impl FromStr for TransportType`: lowercase the input and match it
against the four canonical names; anything else is
`ConfigurationError { reason: format!("Unknown transport type: {}", s) }`. -/
def TransportType.from_str (s : String) : Except TransportError TransportType :=
  let l := toLowercase s
  if l = "ssh" then .ok .Ssh
  else if l = "local" then .ok .Local
  else if l = "tcp" then .ok .Tcp
  else if l = "wsl" then .ok .Wsl
  else .error (.ConfigurationError ("Unknown transport type: " ++ s))

/-- `TransportCapabilities` from `transport/types.rs`: six boolean feature
flags. -/
structure TransportCapabilities where
  auto_upload : Bool
  port_forwarding : Bool
  secure : Bool
  platform_specific : Bool
  reconnectable : Bool
  multiplexing : Bool
  deriving DecidableEq, Repr

/-- `TransportCapabilities::for_transport_type`: the fixed capability table. -/
def TransportCapabilities.for_transport_type :
    TransportType → TransportCapabilities
  | .Ssh =>
    { auto_upload := true
      port_forwarding := true
      secure := true
      platform_specific := false
      reconnectable := true
      multiplexing := true }
  | .Local =>
    { auto_upload := false
      port_forwarding := false
      secure := false
      platform_specific := false
      reconnectable := false
      multiplexing := false }
  | .Tcp =>
    { auto_upload := false
      port_forwarding := false
      secure := false
      platform_specific := false
      reconnectable := true
      multiplexing := false }
  | .Wsl =>
    { auto_upload := false
      port_forwarding := false
      secure := false
      platform_specific := true
      reconnectable := false
      multiplexing := false }

/-- The channel-side error surface visible in `message_channel.rs`
(`ProtocolError`, aliased there to `ChannelError`): `BufferOverflow { size }`
for an over-large send, `ChannelClosed` for a zero-byte read, and
`Serialization { reason }` for an encode/decode failure.  The `Serialization`
variant carries a single `reason` string — the construction sites
`ChannelError::Serialization { reason: ... }` show it has no other field. -/
inductive ChannelError where
  | BufferOverflow (size : Nat)
  | ChannelClosed
  | Serialization (reason : String)
  deriving DecidableEq, Repr

/-- `u16::from_be_bytes([b0, b1])`: the big-endian value of two bytes. -/
def u16FromBe (b0 b1 : Nat) : Nat :=
  256 * b0 + b1

/-- Big-endian bytes of `n as u16`, as written by `write_u16`. -/
def u16ToBe (n : Nat) : List Nat :=
  [(n % 65536) / 256, n % 256]

/-- The write half of the duplex stream: `buffered` holds bytes written but
not yet flushed, `flushedBytes` the bytes made visible to the peer. -/
structure WriteStream where
  buffered : List Nat
  flushedBytes : List Nat
  deriving DecidableEq, Repr

/-- A `write_*` call: append the bytes to the unflushed part. -/
def WriteStream.writeBytes (s : WriteStream) (bs : List Nat) : WriteStream :=
  { s with buffered := s.buffered ++ bs }

/-- `flush`: make every written byte visible to the peer. -/
def WriteStream.flush (s : WriteStream) : WriteStream :=
  { buffered := [], flushedBytes := s.flushedBytes ++ s.buffered }

/-- A freshly created stream: nothing written, nothing flushed. -/
def emptyStream : WriteStream :=
  { buffered := [], flushedBytes := [] }

/-- `MessageChannel::send`: reject payloads over `u16::MAX` bytes with
`BufferOverflow { size }` before any write; otherwise write the 2-byte
big-endian length, then the payload, then flush.  The pair is the call's
result together with the stream as the peer now sees it. -/
def send (s : WriteStream) (payload : List Nat) :
    Except ChannelError Unit × WriteStream :=
  if payload.length > 65535 then
    (.error (.BufferOverflow payload.length), s)
  else
    (.ok (),
      ((s.writeBytes (u16ToBe payload.length)).writeBytes payload).flush)

/-- The frame-extraction step inside `receive_binary`'s loop: when the
buffer holds at least 2 bytes, read the big-endian length `L` from the
first two without consuming; when the buffer holds at least `2 + L` bytes,
consume the header and split off exactly `L` payload bytes
(`advance(2)` then `split_to(payload_len)`). -/
def tryExtract (buf : List Nat) : Option (List Nat × List Nat) :=
  match buf with
  | b0 :: b1 :: rest =>
    let payload_len := u16FromBe b0 b1
    if payload_len ≤ rest.length then
      some (rest.take payload_len, rest.drop payload_len)
    else
      none
  | _ => none

/-- `MessageChannel::receive_binary`: loop, trying to extract one complete
frame from the reassembly buffer; otherwise `read_buf` the next chunk the
stream delivers and append it.  A zero-byte read — the chunk list exhausted,
or an empty chunk — is the peer closing the stream: `ChannelClosed`.
On success, return the payload together with the bytes left in the buffer
and the chunks left unread. -/
def receive_binary : List Nat → List (List Nat) →
    Except ChannelError (List Nat × List Nat × List (List Nat))
  | buf, [] =>
    match tryExtract buf with
    | some (payload, rest) => .ok (payload, rest, [])
    | none => .error .ChannelClosed
  | buf, c :: cs =>
    match tryExtract buf with
    | some (payload, rest) => .ok (payload, rest, c :: cs)
    | none =>
      if c = [] then .error .ChannelClosed
      else receive_binary (buf ++ c) cs

/-- `MessageChannel::send_request`: `serde_json::to_vec(request)` is an
external call, modelled by its outcome `encoded` (`.error e` is a
serialization failure with message `e`).  On failure, fail with
`Serialization { reason: format!("Request serialization failed: {}", e) }`
and leave the stream untouched; on success, delegate to `send`. -/
def send_request (encoded : Except String (List Nat)) (s : WriteStream) :
    Except ChannelError Unit × WriteStream :=
  match encoded with
  | .error e => (.error (.Serialization ("Request serialization failed: " ++ e)), s)
  | .ok bytes => send s bytes

/-- `MessageChannel::send_response`: as `send_request`, with reason
`format!("Response serialization failed: {}", e)`. -/
def send_response (encoded : Except String (List Nat)) (s : WriteStream) :
    Except ChannelError Unit × WriteStream :=
  match encoded with
  | .error e => (.error (.Serialization ("Response serialization failed: " ++ e)), s)
  | .ok bytes => send s bytes

/-- `MessageChannel::receive_request`: `receive` a frame, then decode it with
`serde_json::from_slice`, modelled by the decoder `dec`; a decode failure
with message `e` becomes
`Serialization { reason: format!("Request deserialization failed: {}", e) }`. -/
def receive_request {α : Type} (dec : List Nat → Except String α)
    (buf : List Nat) (chunks : List (List Nat)) : Except ChannelError α :=
  match receive_binary buf chunks with
  | .error err => .error err
  | .ok (payload, _, _) =>
    match dec payload with
    | .error e => .error (.Serialization ("Request deserialization failed: " ++ e))
    | .ok v => .ok v

/-- `MessageChannel::receive_response`: as `receive_request`, with reason
`format!("Response deserialization failed: {}", e)`. -/
def receive_response {α : Type} (dec : List Nat → Except String α)
    (buf : List Nat) (chunks : List (List Nat)) : Except ChannelError α :=
  match receive_binary buf chunks with
  | .error err => .error err
  | .ok (payload, _, _) =>
    match dec payload with
    | .error e => .error (.Serialization ("Response deserialization failed: " ++ e))
    | .ok v => .ok v

/-! Helper lemmas about the receive loop. -/

theorem receive_binary_extract {buf p r : List Nat} (chunks : List (List Nat))
    (h : tryExtract buf = some (p, r)) :
    receive_binary buf chunks = .ok (p, r, chunks) := by
  cases chunks <;> · rw [receive_binary, h]

theorem receive_binary_closed_nil {buf : List Nat}
    (h : tryExtract buf = none) :
    receive_binary buf [] = .error .ChannelClosed := by
  rw [receive_binary, h]

theorem receive_binary_closed_empty {buf : List Nat} (cs : List (List Nat))
    (h : tryExtract buf = none) :
    receive_binary buf ([] :: cs) = .error .ChannelClosed := by
  rw [receive_binary, h]
  rfl

theorem receive_binary_step {buf c : List Nat} (cs : List (List Nat))
    (h : tryExtract buf = none) (hc : c ≠ []) :
    receive_binary buf (c :: cs) = receive_binary (buf ++ c) cs := by
  rw [receive_binary, h]
  simp [hc]

theorem tryExtract_complete {b0 b1 : Nat} {p r : List Nat}
    (h : u16FromBe b0 b1 = p.length) :
    tryExtract (b0 :: b1 :: (p ++ r)) = some (p, r) := by
  simp only [tryExtract, h]
  rw [if_pos (by simp)]
  simp [List.take_left, List.drop_left]

theorem tryExtract_incomplete {buf t p : List Nat} {b0 b1 : Nat}
    (hL : u16FromBe b0 b1 = p.length) (ht : t ≠ [])
    (heq : buf ++ t = b0 :: b1 :: p) :
    tryExtract buf = none := by
  match buf with
  | [] => rfl
  | [x] => rfl
  | x0 :: x1 :: rest =>
    simp only [List.cons_append, List.cons.injEq] at heq
    obtain ⟨hx0, hx1, hrest⟩ := heq
    subst hx0
    subst hx1
    have hlen : rest.length < p.length := by
      have hl := congrArg List.length hrest
      simp only [List.length_append] at hl
      cases t with
      | nil => exact absurd rfl ht
      | cons a as => simp at hl; omega
    simp only [tryExtract, hL]
    rw [if_neg (by omega)]

theorem tryExtract_shape {buf p r : List Nat}
    (h : tryExtract buf = some (p, r)) :
    ∃ b0 b1, buf = b0 :: b1 :: (p ++ r) ∧ u16FromBe b0 b1 = p.length := by
  match buf with
  | [] => simp [tryExtract] at h
  | [x] => simp [tryExtract] at h
  | b0 :: b1 :: rest =>
    refine ⟨b0, b1, ?_⟩
    simp only [tryExtract] at h
    split at h
    · rename_i hle
      injection h with h'
      injection h' with hp hr
      subst hp
      subst hr
      constructor
      · simp [List.take_append_drop]
      · simp [List.length_take]
        omega
    · exact absurd h (by simp)

/-- Delivering precisely the bytes of one valid frame — header `b0 b1`
encoding the payload length, then the payload — split across nonempty
chunks in any way, on top of any already-buffered prefix, reconstructs
exactly the payload, with nothing left over. -/
theorem receive_ok_of_split (chunks : List (List Nat)) (buf p : List Nat)
    (b0 b1 : Nat)
    (hL : u16FromBe b0 b1 = p.length)
    (hne : ∀ c ∈ chunks, c ≠ [])
    (heq : buf ++ chunks.flatten = b0 :: b1 :: p) :
    receive_binary buf chunks = .ok (p, [], []) := by
  induction chunks generalizing buf with
  | nil =>
    simp only [List.flatten_nil, List.append_nil] at heq
    subst heq
    have h1 : tryExtract (b0 :: b1 :: p) = some (p, []) := by
      have h2 := tryExtract_complete (r := []) hL
      simpa using h2
    exact receive_binary_extract [] h1
  | cons c cs ih =>
    have hc : c ≠ [] := hne c (by simp)
    have heq' : (buf ++ c) ++ cs.flatten = b0 :: b1 :: p := by
      simpa [List.append_assoc] using heq
    have hnone : tryExtract buf = none := by
      refine tryExtract_incomplete hL (t := c ++ cs.flatten) ?_ ?_
      · cases c with
        | nil => exact absurd rfl hc
        | cons a as => simp
      · simpa [List.append_assoc] using heq
    rw [receive_binary_step cs hnone hc]
    exact ih (buf ++ c) (fun d hd => hne d (by simp [hd])) heq'

/-- If the stream closes — the chunks run out — while the buffered bytes
plus everything the stream delivers still fall short of one valid frame
(a nonempty tail `t` of the frame is missing), the receive loop fails with
`ChannelClosed`. -/
theorem receive_closed_of_short (chunks : List (List Nat)) (buf t p : List Nat)
    (b0 b1 : Nat)
    (hL : u16FromBe b0 b1 = p.length)
    (ht : t ≠ [])
    (heq : (buf ++ chunks.flatten) ++ t = b0 :: b1 :: p) :
    receive_binary buf chunks = .error .ChannelClosed := by
  induction chunks generalizing buf with
  | nil =>
    simp only [List.flatten_nil, List.append_nil] at heq
    exact receive_binary_closed_nil (tryExtract_incomplete hL ht heq)
  | cons c cs ih =>
    have hnone : tryExtract buf = none := by
      refine tryExtract_incomplete hL (t := c ++ (cs.flatten ++ t)) ?_ ?_
      · have : t ≠ [] := ht
        cases c with
        | nil =>
          simp only [List.nil_append]
          cases cs.flatten with
          | nil => simpa
          | cons x xs => simp
        | cons a as => simp
      · simpa [List.append_assoc] using heq
    by_cases hc : c = []
    · subst hc
      exact receive_binary_closed_empty cs hnone
    · rw [receive_binary_step cs hnone hc]
      exact ih (buf ++ c) (by simpa [List.append_assoc] using heq)

/-- Anatomy of a successful receive: the chunks actually consumed (`pre`),
appended to the initial buffer, form exactly a 2-byte header whose
big-endian value is the returned payload's length, the payload, and the
bytes left in the buffer; the chunks after `pre` are returned unread. -/
theorem receive_ok_shape (chunks : List (List Nat)) (buf p r : List Nat)
    (cs : List (List Nat))
    (h : receive_binary buf chunks = .ok (p, r, cs)) :
    ∃ pre b0 b1, chunks = pre ++ cs ∧
      buf ++ pre.flatten = b0 :: b1 :: (p ++ r) ∧
      u16FromBe b0 b1 = p.length := by
  induction chunks generalizing buf with
  | nil =>
    cases he : tryExtract buf with
    | none =>
      rw [receive_binary_closed_nil he] at h
      exact absurd h (by simp)
    | some pr =>
      obtain ⟨p', r'⟩ := pr
      rw [receive_binary_extract [] he] at h
      obtain ⟨hp, hr, hcs⟩ : p' = p ∧ r' = r ∧ ([] : List (List Nat)) = cs := by
        simpa using h
      subst hp; subst hr; subst hcs
      obtain ⟨b0, b1, hbuf, hL⟩ := tryExtract_shape he
      exact ⟨[], b0, b1, by simp, by simpa using hbuf, hL⟩
  | cons c cs' ih =>
    cases he : tryExtract buf with
    | some pr =>
      obtain ⟨p', r'⟩ := pr
      rw [receive_binary_extract (c :: cs') he] at h
      obtain ⟨hp, hr, hcs⟩ : p' = p ∧ r' = r ∧ c :: cs' = cs := by
        simpa using h
      subst hp; subst hr; subst hcs
      obtain ⟨b0, b1, hbuf, hL⟩ := tryExtract_shape he
      exact ⟨[], b0, b1, by simp, by simpa using hbuf, hL⟩
    | none =>
      by_cases hc : c = []
      · subst hc
        rw [receive_binary_closed_empty cs' he] at h
        exact absurd h (by simp)
      · rw [receive_binary_step cs' he hc] at h
        obtain ⟨pre', b0, b1, hchunks, hbuf, hL⟩ := ih (buf ++ c) h
        exact ⟨c :: pre', b0, b1, by simp [hchunks],
          by simpa [List.append_assoc] using hbuf, hL⟩

/-! The claims. -/

/-- C1: for every payload of length 0..65535, `send` on one end of a
connected duplex pair succeeds, and `receive` on the other end — the
flushed bytes delivered as one read — returns a byte-identical payload. -/
theorem C1_round_trip (p : List Nat) (h : p.length ≤ 65535) :
    (send emptyStream p).1 = .ok () ∧
    receive_binary [] [(send emptyStream p).2.flushedBytes] =
      .ok (p, [], []) := by
  have hnot : ¬ p.length > 65535 := by omega
  have hsend : send emptyStream p =
      (.ok (), { buffered := [], flushedBytes := u16ToBe p.length ++ p }) := by
    simp [send, hnot, emptyStream, WriteStream.writeBytes, WriteStream.flush]
  rw [hsend]
  refine ⟨rfl, ?_⟩
  have hm : p.length % 65536 = p.length := Nat.mod_eq_of_lt (by omega)
  apply receive_ok_of_split [u16ToBe p.length ++ p] [] p
    ((p.length % 65536) / 256) (p.length % 256)
  · simp only [u16FromBe, hm]
    omega
  · intro c hc
    simp only [List.mem_singleton] at hc
    subst hc
    simp [u16ToBe]
  · simp [u16ToBe]

/-- C1 witness: the 3-byte payload `[1, 2, 3]` round-trips. -/
theorem C1_round_trip_witness :
    (send emptyStream [1, 2, 3]).1 = .ok () ∧
    receive_binary [] [(send emptyStream [1, 2, 3]).2.flushedBytes] =
      .ok ([1, 2, 3], [], []) :=
  C1_round_trip [1, 2, 3] (by decide)

/-- C2: one valid frame — header bytes `b0 b1` whose big-endian value is the
payload length, then the payload — delivered split across arbitrarily many
nonempty reads, reconstructs exactly the original payload, independently of
the fragmentation. -/
theorem C2_fragmentation_invariance (p : List Nat) (b0 b1 : Nat)
    (chunks : List (List Nat))
    (hL : u16FromBe b0 b1 = p.length)
    (hne : ∀ c ∈ chunks, c ≠ [])
    (hsplit : chunks.flatten = b0 :: b1 :: p) :
    receive_binary [] chunks = .ok (p, [], []) :=
  receive_ok_of_split chunks [] p b0 b1 hL hne (by simpa using hsplit)

/-- C2 witness: the frame `[0, 1, 7]` delivered one byte per read yields
payload `[7]`. -/
theorem C2_fragmentation_invariance_witness :
    receive_binary [] [[0], [1], [7]] = .ok ([7], [], []) :=
  C2_fragmentation_invariance [7] 0 1 [[0], [1], [7]]
    (by decide) (by decide) (by decide)

/-- C3: a payload longer than 65535 bytes is rejected with
`BufferOverflow { size: payload.length }` and the stream is untouched, so
the peer observes nothing. -/
theorem C3_oversize_rejection (s : WriteStream) (p : List Nat)
    (h : p.length > 65535) :
    send s p = (.error (.BufferOverflow p.length), s) := by
  simp [send, h]

/-- C3 witness: a 65536-byte payload yields `BufferOverflow { size: 65536 }`
and zero bytes reach the peer. -/
theorem C3_oversize_rejection_witness :
    send emptyStream (List.replicate 65536 0) =
      (.error (.BufferOverflow 65536), emptyStream) ∧
    (send emptyStream (List.replicate 65536 0)).2.flushedBytes = [] := by
  have hlen : (List.replicate 65536 (0 : Nat)).length = 65536 :=
    List.length_replicate _ _
  have h := C3_oversize_rejection emptyStream (List.replicate 65536 0)
    (by rw [hlen]; omega)
  constructor
  · rw [h, hlen]
  · rw [h]
    rfl

/-- C4: if the stream closes (zero-byte read) while the bytes delivered so
far — on top of any already-buffered bytes — still miss a nonempty tail `t`
of a valid frame, `receive` fails with `ChannelClosed`: a half-received
frame is never returned as a truncated success. -/
theorem C4_closed_stream (p buf t : List Nat) (chunks : List (List Nat))
    (b0 b1 : Nat)
    (hL : u16FromBe b0 b1 = p.length)
    (ht : t ≠ [])
    (heq : (buf ++ chunks.flatten) ++ t = b0 :: b1 :: p) :
    receive_binary buf chunks = .error .ChannelClosed :=
  receive_closed_of_short chunks buf t p b0 b1 hL ht heq

/-- C4 witness: a frame announcing 5 payload bytes closed after the first
payload byte fails with `ChannelClosed`. -/
theorem C4_closed_stream_witness :
    receive_binary [] [[0, 5, 1]] = .error .ChannelClosed :=
  C4_closed_stream [1, 2, 3, 4, 5] [] [2, 3, 4, 5] [[0, 5, 1]] 0 5
    (by decide) (by decide) (by decide)

/-- C5: a successful `send` of a payload of length at most 65535 writes
exactly the 2-byte big-endian length followed by the payload, and flushes
before returning (nothing stays buffered; the full frame is appended to the
bytes the peer sees). -/
theorem C5_send_frame_layout (s : WriteStream) (p : List Nat)
    (h : p.length ≤ 65535) (hb : s.buffered = []) :
    send s p =
      (.ok (),
        { buffered := [],
          flushedBytes :=
            s.flushedBytes ++ ([p.length / 256, p.length % 256] ++ p) }) := by
  have hnot : ¬ p.length > 65535 := by omega
  have hm : p.length % 65536 = p.length := Nat.mod_eq_of_lt (by omega)
  simp [send, hnot, WriteStream.writeBytes, WriteStream.flush, u16ToBe, hb, hm]

/-- C5 witness: sending `[9]` writes exactly `[0, 1, 9]` and flushes it. -/
theorem C5_send_frame_layout_witness :
    send emptyStream [9] =
      (.ok (), { buffered := [], flushedBytes := [0, 1, 9] }) := by
  have h := C5_send_frame_layout emptyStream [9] (by decide) rfl
  simpa [emptyStream] using h

/-- C6: `for_transport_type` is total over the four transport kinds and
returns exactly the capability table's row for each kind. -/
theorem C6_capability_table :
    TransportCapabilities.for_transport_type .Ssh =
      { auto_upload := true, port_forwarding := true, secure := true,
        platform_specific := false, reconnectable := true,
        multiplexing := true } ∧
    TransportCapabilities.for_transport_type .Local =
      { auto_upload := false, port_forwarding := false, secure := false,
        platform_specific := false, reconnectable := false,
        multiplexing := false } ∧
    TransportCapabilities.for_transport_type .Tcp =
      { auto_upload := false, port_forwarding := false, secure := false,
        platform_specific := false, reconnectable := true,
        multiplexing := false } ∧
    TransportCapabilities.for_transport_type .Wsl =
      { auto_upload := false, port_forwarding := false, secure := false,
        platform_specific := true, reconnectable := false,
        multiplexing := false } :=
  ⟨rfl, rfl, rfl, rfl⟩

/-- C7: parsing is case-insensitive over the four canonical names; the
canonical string form round-trips with parsing in both directions; every
string outside the four names (in any case) fails with a
`ConfigurationError` whose reason names the offending string. -/
theorem C7_parse_round_trip :
    (∀ s : String, toLowercase s = "ssh" →
      TransportType.from_str s = .ok .Ssh) ∧
    (∀ s : String, toLowercase s = "local" →
      TransportType.from_str s = .ok .Local) ∧
    (∀ s : String, toLowercase s = "tcp" →
      TransportType.from_str s = .ok .Tcp) ∧
    (∀ s : String, toLowercase s = "wsl" →
      TransportType.from_str s = .ok .Wsl) ∧
    (∀ k : TransportType,
      TransportType.from_str (TransportType.fmt k) = .ok k) ∧
    ((TransportType.from_str "ssh").map TransportType.fmt = .ok "ssh" ∧
     (TransportType.from_str "local").map TransportType.fmt = .ok "local" ∧
     (TransportType.from_str "tcp").map TransportType.fmt = .ok "tcp" ∧
     (TransportType.from_str "wsl").map TransportType.fmt = .ok "wsl") ∧
    (∀ s : String,
      toLowercase s ≠ "ssh" → toLowercase s ≠ "local" →
      toLowercase s ≠ "tcp" → toLowercase s ≠ "wsl" →
      TransportType.from_str s =
        .error (.ConfigurationError ("Unknown transport type: " ++ s))) := by
  refine ⟨?_, ?_, ?_, ?_, ?_, by decide, ?_⟩
  · intro s h
    simp [TransportType.from_str, h]
  · intro s h
    simp [TransportType.from_str, h]
  · intro s h
    simp [TransportType.from_str, h]
  · intro s h
    simp [TransportType.from_str, h]
  · intro k
    cases k <;> decide
  · intro s h1 h2 h3 h4
    simp [TransportType.from_str, h1, h2, h3, h4]

/-- C7 witness: `"SSH"` parses case-insensitively, and `"bogus"` fails with
a `ConfigurationError` naming it. -/
theorem C7_parse_round_trip_witness :
    TransportType.from_str "SSH" = .ok .Ssh ∧
    TransportType.from_str "bogus" =
      .error (.ConfigurationError "Unknown transport type: bogus") := by
  constructor
  · exact C7_parse_round_trip.1 "SSH" (by decide)
  · have h := C7_parse_round_trip.2.2.2.2.2.2 "bogus"
      (by decide) (by decide) (by decide) (by decide)
    simpa using h

/-- C8 counterexample: the claim says the `Serialization` error carries a
`direction` field beside `reason`.  It does not: the whole error is
`Serialization { reason }` — a single string — and the direction is only
embedded in the reason text (`"Request serialization failed: ..."`), which
is not the direction token `"request"` itself.  At the concrete failing
encode `"boom"`, both directions produce a one-field error distinguished
only by the reason prefix. -/
theorem C8_counterexample :
    (send_request (.error "boom") emptyStream).1 =
      .error (.Serialization "Request serialization failed: boom") ∧
    "Request serialization failed: boom" ≠ "request" ∧
    (send_response (.error "boom") emptyStream).1 =
      .error (.Serialization "Response serialization failed: boom") ∧
    "Response serialization failed: boom" ≠ "response" :=
  ⟨rfl, by decide, rfl, by decide⟩

/-- C8 (amended): on encode failure, `send_request` / `send_response` fail
with a `Serialization` error whose reason names the direction
(`"Request serialization failed: ..."` / `"Response serialization
failed: ..."`) and write nothing to the channel; a decode failure in
`receive_request` / `receive_response` likewise yields a `Serialization`
error whose reason names the direction. -/
theorem C8_serialization_errors (e : String) (s : WriteStream) :
    send_request (.error e) s =
      (.error (.Serialization ("Request serialization failed: " ++ e)), s) ∧
    send_response (.error e) s =
      (.error (.Serialization ("Response serialization failed: " ++ e)), s) ∧
    (∀ (dec : List Nat → Except String Unit) (buf p r : List Nat)
        (chunks cs : List (List Nat)),
      receive_binary buf chunks = .ok (p, r, cs) →
      dec p = .error e →
      receive_request dec buf chunks =
        .error (.Serialization ("Request deserialization failed: " ++ e))) ∧
    (∀ (dec : List Nat → Except String Unit) (buf p r : List Nat)
        (chunks cs : List (List Nat)),
      receive_binary buf chunks = .ok (p, r, cs) →
      dec p = .error e →
      receive_response dec buf chunks =
        .error (.Serialization ("Response deserialization failed: " ++ e))) := by
  refine ⟨rfl, rfl, ?_, ?_⟩
  · intro dec buf p r chunks cs hrb hdec
    simp [receive_request, hrb, hdec]
  · intro dec buf p r chunks cs hrb hdec
    simp [receive_response, hrb, hdec]

/-- C8 witness: a decoder failing with `"boom"` on the empty frame makes
`receive_request` fail with the direction-naming reason. -/
theorem C8_serialization_errors_witness :
    receive_request (fun _ => (.error "boom" : Except String Unit)) [0, 0] [] =
      .error (.Serialization "Request deserialization failed: boom") := by
  have h := (C8_serialization_errors "boom" emptyStream).2.2.1
    (fun _ => (.error "boom" : Except String Unit)) [0, 0] [] [] [] []
    (by decide) rfl
  simpa using h

/-- C9: whenever the buffer holds at least `2 + L` bytes, `L` the big-endian
value of its first two bytes, `receive` consumes exactly the header plus the
next `L` bytes and returns them, leaving every further buffered byte and the
unread stream untouched; two complete frames buffered together are returned
in order by two consecutive calls without touching the stream. -/
theorem C9_buffered_frame_consumption (b0 b1 : Nat) (rest : List Nat)
    (chunks : List (List Nat))
    (h : u16FromBe b0 b1 ≤ rest.length) :
    receive_binary (b0 :: b1 :: rest) chunks =
      .ok (rest.take (u16FromBe b0 b1), rest.drop (u16FromBe b0 b1),
        chunks) ∧
    (∀ (p1 p2 : List Nat) (c0 c1 d0 d1 : Nat),
      u16FromBe c0 c1 = p1.length →
      u16FromBe d0 d1 = p2.length →
      receive_binary (c0 :: c1 :: (p1 ++ d0 :: d1 :: p2)) chunks =
        .ok (p1, d0 :: d1 :: p2, chunks) ∧
      receive_binary (d0 :: d1 :: p2) chunks = .ok (p2, [], chunks)) := by
  constructor
  · apply receive_binary_extract
    simp only [tryExtract]
    rw [if_pos h]
  · intro p1 p2 c0 c1 d0 d1 h1 h2
    constructor
    · exact receive_binary_extract chunks (tryExtract_complete h1)
    · apply receive_binary_extract chunks
      have h3 := tryExtract_complete (r := []) h2
      simpa using h3

/-- C9 witness: buffer `[0, 1, 5, 9]` yields payload `[5]` and leaves `[9]`
buffered, stream untouched. -/
theorem C9_buffered_frame_consumption_witness :
    receive_binary [0, 1, 5, 9] [] = .ok ([5], [9], []) := by
  have h := (C9_buffered_frame_consumption 0 1 [5, 9] [] (by decide)).1
  simpa [u16FromBe] using h

/-- C10: every payload a successful `receive` returns has length at most
65535 and its length is exactly the big-endian value of the consumed 2-byte
header (the consumed bytes being the buffer plus the chunks actually read);
a frame whose header is 0 yields an empty payload successfully. -/
theorem C10_received_length_invariant (buf p r : List Nat)
    (chunks cs : List (List Nat))
    (hbuf : ∀ b ∈ buf, b < 256)
    (hch : ∀ c ∈ chunks, ∀ b ∈ c, b < 256)
    (hok : receive_binary buf chunks = .ok (p, r, cs)) :
    (p.length ≤ 65535 ∧
      ∃ pre b0 b1, chunks = pre ++ cs ∧
        buf ++ pre.flatten = b0 :: b1 :: (p ++ r) ∧
        b0 < 256 ∧ b1 < 256 ∧ u16FromBe b0 b1 = p.length) ∧
    receive_binary [] [[0, 0]] = .ok ([], [], []) := by
  refine ⟨?_, by decide⟩
  obtain ⟨pre, b0, b1, hchunks, hsplit, hL⟩ :=
    receive_ok_shape chunks buf p r cs hok
  have hmem : ∀ b ∈ buf ++ pre.flatten, b < 256 := by
    intro b hb
    rcases List.mem_append.1 hb with hb | hb
    · exact hbuf b hb
    · obtain ⟨c, hcpre, hbc⟩ := List.mem_flatten.1 hb
      exact hch c (by rw [hchunks]; exact List.mem_append_left cs hcpre) b hbc
  have hb0 : b0 < 256 := hmem b0 (by rw [hsplit]; exact List.mem_cons_self _ _)
  have hb1 : b1 < 256 := hmem b1
    (by rw [hsplit]; exact List.mem_cons_of_mem _ (List.mem_cons_self _ _))
  simp only [u16FromBe] at hL
  exact ⟨by omega, pre, b0, b1, hchunks, hsplit, hb0, hb1, hL⟩

/-- C10 witness: the buffered frame `[0, 1, 7]` yields payload `[7]`, whose
length is bounded by 65535 and matches the header value 1. -/
theorem C10_received_length_invariant_witness :
    ([7] : List Nat).length ≤ 65535 :=
  (C10_received_length_invariant [0, 1, 7] [7] [] [] []
    (by decide) (by decide) (by decide)).1.1

end Yuha
